import Mathlib

namespace PianoStore

/-!
Verification of the piano/sequencer instrument and its marketplace store.

Each definition is a shallow embedding of a function of the repository:

* `NOTE_NAMES`, `getNoteFrequency` — `client/src/lib/piano.ts`
* `soundboardNoteFrequency` — the local copy inside
  `client/src/pages/PianoSoundboard.tsx`
* `scheduleNotes`, `envelopeEvents`, sequencer state machine — the
  sequencer grid component (`SequencerGrid`)
* `RecorderState` operations — `RecordingControls.tsx`
* `MemStorage` operations — `server/routes.ts`

Machine numbers of the source (JS doubles) are modelled as exact
rationals (for the scheduler, envelopes and timestamps) or reals (for
the equal-tempered frequency formula, which needs `2 ^ (s / 12)`).
-/

/-! ## Frequency calculator (`client/src/lib/piano.ts`) -/

/-- The chromatic note names, constant `NOTE_NAMES` of `piano.ts`. -/
def NOTE_NAMES : List String :=
  ["C", "C#", "D", "D#", "E", "F"] ++ ["F#", "G", "G#", "A", "A#", "B"]

/-- `getNoteFrequency` of `client/src/lib/piano.ts`.  The source computes
`noteIndex = NOTE_NAMES.indexOf(note)` and returns `0` when the index is
`-1` (note unknown); otherwise it returns
`440 * 2 ^ (((octave - 4) * 12 + (noteIndex - 9)) / 12)`. -/
noncomputable def getNoteFrequency (note : String) (octave : ℤ) : ℝ :=
  if note ∈ NOTE_NAMES then
    440 * (2 : ℝ) ^
      ((((octave - 4) * 12 + ((NOTE_NAMES.indexOf note : ℤ) - 9) : ℤ) : ℝ) / 12)
  else 0

/-- The note-name table local to `PianoSoundboard.tsx` (`noteNames`),
textually identical to `NOTE_NAMES`. -/
def soundboardNoteNames : List String :=
  ["C", "C#", "D", "D#"] ++ ["E", "F", "F#", "G"] ++ ["G#", "A", "A#", "B"]

/-- The `getNoteFrequency` copy defined inside `PianoSoundboard.tsx`:
identical formula, but the unknown-note fallback is `440` ("Default to A4
if note not found") instead of `0`. -/
noncomputable def soundboardNoteFrequency (note : String) (octave : ℤ) : ℝ :=
  if note ∈ soundboardNoteNames then
    440 * (2 : ℝ) ^
      ((((octave - 4) * 12 +
          ((soundboardNoteNames.indexOf note : ℤ) - 9) : ℤ) : ℝ) / 12)
  else 440

/-! ## Note scheduler (`SequencerGrid`) -/

/-- A pattern note of the sequencer grid (`interface Note`): the start
time and duration are in beats, the velocity in `[0, 1]`. -/
structure SeqNote where
  id : String
  note : String
  octave : ℤ
  startTime : ℚ
  duration : ℚ
  velocity : ℚ
deriving DecidableEq

/-- One `playNote(note, startTime, duration)` call issued by the
scheduler: the dispatched note together with its absolute start time and
duration in seconds on the audio clock. -/
structure Dispatch where
  note : SeqNote
  startTime : ℚ
  duration : ℚ
deriving DecidableEq

/-- The scheduler look-ahead window, `lookAheadTime = 0.1` seconds. -/
def lookAheadTime : ℚ := 1 / 10

/-- `scheduleNotes` of `SequencerGrid`: for each pattern note it computes
`noteStartTime = note.startTime * beatDuration / 1000` and
`noteDuration = note.duration * beatDuration / 1000` (seconds;
`beatDuration = 60000 / bpm` is in milliseconds) and calls `playNote`
exactly when `noteStartTime >= currentTime` and
`noteStartTime < currentTime + lookAheadTime`.  The computed start time
is *not* offset by the reference timestamp captured at start. -/
def scheduleNotes (notes : List SeqNote) (beatDuration currentTime : ℚ) :
    List Dispatch :=
  (notes.filter (fun n =>
      let s := n.startTime * beatDuration / 1000
      decide (s ≥ currentTime ∧ s < currentTime + lookAheadTime))).map
    (fun n =>
      ⟨n, n.startTime * beatDuration / 1000, n.duration * beatDuration / 1000⟩)

/-- Modelled from the spec: the claimed scheduler tick, in which each
note's absolute start time is the *reference clock timestamp captured at
the Stopped-to-Playing transition* plus its beat offset
(`referenceTime + note.startTime * beatDuration / 1000`), dispatched when
that start time falls within the 100 ms look-ahead window ahead of the
current clock. -/
def scheduleNotesSpec (referenceTime : ℚ) (notes : List SeqNote)
    (beatDuration currentTime : ℚ) : List Dispatch :=
  (notes.filter (fun n =>
      let s := referenceTime + n.startTime * beatDuration / 1000
      decide (s ≥ currentTime ∧ s < currentTime + lookAheadTime))).map
    (fun n =>
      ⟨n, referenceTime + n.startTime * beatDuration / 1000,
        n.duration * beatDuration / 1000⟩)

/-- The pattern note used by the concrete scheduling scenarios:
`startTime = 0`, `duration = 1` beat. -/
def c2Note : SeqNote :=
  { id := "n0", note := "C", octave := 4, startTime := 0, duration := 1,
    velocity := 7 / 10 }

/-! ## Sequencer playback state machine (`SequencerGrid`)

The component's mutable pieces — `isPlaying`, the `setInterval` handle
`schedulerIntervalRef`, the pending `requestAnimationFrame` callback, the
`oscillators` map of sounding notes and the reference timestamp
`lastTimeRef` — are modelled as one record, and the host event loop as a
list of events.  A `tick` event (the 100 ms interval callback) can only
fire while the interval is installed, and a `frame` event only while an
animation-frame callback is pending, matching `clearInterval` and
`cancelAnimationFrame` semantics of the single-threaded host. -/

/-- Truncating JS float remainder `x % y` for the playhead position. -/
def jsMod (x y : ℚ) : ℚ := x - y * ((x / y).floor : ℤ)

/-- The mutable state of `SequencerGrid` during playback. -/
structure SeqMachine where
  isPlaying : Bool
  schedulerActive : Bool
  framePending : Bool
  soundingNotes : List String
  refTime : ℚ
  currentBeat : ℚ
deriving DecidableEq

/-- `startSequencer`: set `isPlaying`, reset the playhead, capture the
reference timestamp, request an animation frame and install the 100 ms
scheduler interval.  Already sounding notes are left alone. -/
def startSequencer (s : SeqMachine) (now : ℚ) : SeqMachine :=
  { s with
    isPlaying := true
    currentBeat := 0
    refTime := now
    framePending := true
    schedulerActive := true }

/-- `stopAllNotes`: stop and disconnect every oscillator and clear the
map. -/
def stopAllNotes (s : SeqMachine) : SeqMachine :=
  { s with soundingNotes := [] }

/-- `stopSequencer`: clear `isPlaying`, cancel the pending animation
frame, clear the scheduler interval, and silence all sounding notes. -/
def stopSequencer (s : SeqMachine) : SeqMachine :=
  stopAllNotes
    { s with
      isPlaying := false
      framePending := false
      schedulerActive := false }

/-- Host event-loop events delivered to the component. -/
inductive SeqEvent
  | tick (t : ℚ)
  | frame (t : ℚ)
  | press (t : ℚ)
  | release

/-- Whether an event is the user pressing play (`startSequencer`). -/
def SeqEvent.isStart : SeqEvent → Bool
  | .press _ => true
  | _ => false

/-- One step of the host event loop, returning the next state and the
`playNote` dispatches issued during the step.  A `tick` runs
`scheduleNotes` (whose dispatches are recorded in the `oscillators` map);
a `frame` runs `playStep`, which recomputes the playhead and re-requests
a frame only while `isPlaying` holds; `press` and `release` are the
transport buttons. -/
def stepEvent (notes : List SeqNote) (beatDuration totalBeats : ℚ)
    (s : SeqMachine) : SeqEvent → SeqMachine × List Dispatch
  | .tick t =>
      if s.schedulerActive then
        let ds := scheduleNotes notes beatDuration t
        ({ s with soundingNotes := s.soundingNotes ++ ds.map (·.note.id) }, ds)
      else (s, [])
  | .frame t =>
      if s.framePending then
        if s.isPlaying then
          ({ s with
              currentBeat :=
                jsMod ((t - s.refTime) / beatDuration * 1000) totalBeats
              framePending := true }, [])
        else ({ s with framePending := false }, [])
      else (s, [])
  | .press t => (startSequencer s t, [])
  | .release => (stopSequencer s, [])

/-- Run a list of host events, collecting all dispatches in order. -/
def runEvents (notes : List SeqNote) (beatDuration totalBeats : ℚ)
    (s : SeqMachine) : List SeqEvent → SeqMachine × List Dispatch
  | [] => (s, [])
  | e :: es =>
      let r1 := stepEvent notes beatDuration totalBeats s e
      let r2 := runEvents notes beatDuration totalBeats r1.1 es
      (r2.1, r1.2 ++ r2.2)

/-! ## Recording timer (`RecordingControls.tsx`)

Timestamps come from `Date.now()`, an integer count of milliseconds, so
they are modelled as integers. -/

/-- A recorded note (`interface Note` of `RecordingControls.tsx`): pitch
name, octave, and milliseconds since the recording started. -/
structure RecNote where
  note : String
  octave : ℤ
  time : ℤ
deriving DecidableEq

/-- The recorder's mutable state: the `isRecording` flag, the
`recordedNotes` buffer and the `startTimeRef` timestamp. -/
structure RecorderState where
  isRecording : Bool
  recordedNotes : List RecNote
  startTime : Option ℤ
deriving DecidableEq

/-- `startRecording`: clear the buffer, capture `Date.now()` as the start
timestamp and raise the recording flag. -/
def startRecording (now : ℤ) : RecorderState :=
  { isRecording := true, recordedNotes := [], startTime := some now }

/-- `addNoteToRecording(note, octave)`: while recording (the source
checks `isRecording && startTimeRef.current`, so a zero timestamp is
treated as absent by JS truthiness), append
`(note, octave, Date.now() - startTime)` to the buffer. -/
def addNoteToRecording (s : RecorderState) (note : String) (octave : ℤ)
    (now : ℤ) : RecorderState :=
  match s.startTime with
  | some st =>
      if s.isRecording ∧ st ≠ 0 then
        { s with recordedNotes := s.recordedNotes ++ [⟨note, octave, now - st⟩] }
      else s
  | none => s

/-- `stopRecording`: lower the recording flag and hand the buffer to the
completion callback (`onRecordingComplete(recordedNotes)`). -/
def stopRecording (s : RecorderState) : RecorderState × List RecNote :=
  ({ s with isRecording := false }, s.recordedNotes)

/-! ## Envelope shaper (`playNote` of `SequencerGrid`)

`playNote` drives a per-note gain node through five Web Audio automation
calls.  `envelopeEvents` transcribes those calls as a function of the
peak value, envelope and timing; the sequencer instantiates it at
`note.velocity` and its fixed envelope constant.  `gainAt` is the value
of the resulting piecewise-linear automation curve. -/

/-- An ADSR envelope: attack, decay and release in seconds, sustain a
level fraction. -/
structure ADSR where
  attack : ℚ
  decay : ℚ
  sustain : ℚ
  release : ℚ
deriving DecidableEq

/-- The envelope constant hard-coded in the sequencer's `playNote`
(`attack 0.01, decay 0.1, sustain 0.7, release 0.3`). -/
def sequencerEnvelope : ADSR := ⟨1 / 100, 1 / 10, 7 / 10, 3 / 10⟩

/-- A gain-automation event: `setValueAtTime` or
`linearRampToValueAtTime`, each with a target value and a time. -/
inductive GainEvent
  | setValue (value : ℚ) (time : ℚ)
  | rampTo (value : ℚ) (time : ℚ)
deriving DecidableEq

/-- The five automation calls `playNote` issues on the note's gain node,
for peak value `v`, envelope `env`, start time `startTime` and duration
`duration` (both in seconds): value 0 at the start, ramp to `v` over the
attack, ramp to `v * sustain` over the decay, hold `v * sustain` from
`startTime + duration - release`, ramp to 0 at `startTime + duration`. -/
def envelopeEvents (v : ℚ) (env : ADSR) (startTime duration : ℚ) :
    List GainEvent :=
  [GainEvent.setValue 0 startTime,
   GainEvent.rampTo v (startTime + env.attack),
   GainEvent.rampTo (v * env.sustain) (startTime + env.attack + env.decay),
   GainEvent.setValue (v * env.sustain) (startTime + duration - env.release),
   GainEvent.rampTo 0 (startTime + duration)]

/-- The gain events of the sequencer's `playNote` for a pattern note: the
peak is the note's velocity and the envelope is the hard-coded constant. -/
def playNoteEvents (n : SeqNote) (startTime duration : ℚ) : List GainEvent :=
  envelopeEvents n.velocity sequencerEnvelope startTime duration

/-- Value of a gain-automation curve at time `t`, starting from value
`v0` set at time `t0` (the gain node is created with `gain.value = 0`):
a `setValue` event holds the previous value until its time; a `rampTo`
event interpolates linearly from the previous event's value and time. -/
def gainAtFrom (v0 t0 : ℚ) : List GainEvent → ℚ → ℚ
  | [], _ => v0
  | GainEvent.setValue v1 t1 :: rest, t =>
      if t < t1 then v0 else gainAtFrom v1 t1 rest t
  | GainEvent.rampTo v1 t1 :: rest, t =>
      if t < t1 then v0 + (v1 - v0) * (t - t0) / (t1 - t0)
      else gainAtFrom v1 t1 rest t

/-- Value of the automation curve of an event list at time `t`, from the
initial gain value 0. -/
def gainAt (events : List GainEvent) (t : ℚ) : ℚ := gainAtFrom 0 0 events t

/-! ## Marketplace storage (`MemStorage` of `server/routes.ts`)

The five JS `Map`s are modelled as association lists with `Map.get`,
`Map.set` and `Map.delete` semantics (`lookupKey`, `setKey`,
`eraseKey`); `Date` values as natural-number timestamps supplied as a
`now` argument; JS `||`-defaulting of possibly-absent fields by helpers
that treat `""` and `0` as falsy, as the source does. -/

/-- `Map.get`. -/
def lookupKey {α : Type} (l : List (ℕ × α)) (k : ℕ) : Option α :=
  (l.find? (fun p => p.1 == k)).map Prod.snd

/-- `Map.set`: replace the binding in place when the key is present,
append it otherwise. -/
def setKey {α : Type} (l : List (ℕ × α)) (k : ℕ) (v : α) : List (ℕ × α) :=
  if l.any (fun p => p.1 == k) then
    l.map (fun p => if p.1 == k then (k, v) else p)
  else l ++ [(k, v)]

/-- `Map.delete`. -/
def eraseKey {α : Type} (l : List (ℕ × α)) (k : ℕ) : List (ℕ × α) :=
  l.filter (fun p => p.1 != k)

/-- JS `s || null` for an optional string column: the empty string is
falsy and collapses to `null`. -/
def jsStrOrNull (s : Option String) : Option String :=
  match s with
  | some str => if str = "" then none else some str
  | none => none

/-- JS `s || d` for a string with default: `""` falls back to `d`. -/
def jsStrOr (s : Option String) (d : String) : String :=
  match s with
  | some str => if str = "" then d else str
  | none => d

/-- JS `n || d` for a number with default: `0` falls back to `d`. -/
def jsNumOr (n : Option ℤ) (d : ℤ) : ℤ :=
  match n with
  | some v => if v = 0 then d else v
  | none => d

/-- JS `Math.round`: round half toward positive infinity. -/
def jsRound (q : ℚ) : ℤ := ⌊q + 1 / 2⌋

/-- A `users` row of `shared/schema.ts`. -/
structure StoreUser where
  id : ℕ
  username : String
  password : String
  createdAt : ℕ
deriving DecidableEq

/-- `InsertUser`. -/
structure InsertUser where
  username : String
  password : String
deriving DecidableEq

/-- A `sound_packs` row: price in cents, `downloads` and `rating`
integer counters. -/
structure SoundPack where
  id : ℕ
  name : String
  description : Option String
  userId : ℕ
  price : ℤ
  isPublic : Bool
  downloads : ℤ
  rating : ℤ
  imageUrl : Option String
  createdAt : ℕ
  updatedAt : ℕ
deriving DecidableEq

/-- `InsertSoundPack` (name, description?, userId, price?, isPublic?,
imageUrl?). -/
structure InsertSoundPack where
  name : String
  description : Option String
  userId : ℕ
  price : Option ℤ
  isPublic : Option Bool
  imageUrl : Option String
deriving DecidableEq

/-- `Partial(SoundPack)` as accepted by `updateSoundPack`: any subset of
columns; the implementation forces `id` and `updatedAt` afterwards. -/
structure SoundPackPatch where
  id : Option ℕ := none
  name : Option String := none
  description : Option (Option String) := none
  userId : Option ℕ := none
  price : Option ℤ := none
  isPublic : Option Bool := none
  downloads : Option ℤ := none
  rating : Option ℤ := none
  imageUrl : Option (Option String) := none
  createdAt : Option ℕ := none
  updatedAt : Option ℕ := none
deriving DecidableEq

/-- A `sounds` row. -/
structure StoreSound where
  id : ℕ
  packId : ℕ
  name : String
  note : String
  octave : ℤ
  soundFile : Option String
  waveform : String
  envelope : ADSR
  createdAt : ℕ
deriving DecidableEq

/-- `InsertSound`. -/
structure InsertSound where
  packId : ℕ
  name : String
  note : String
  octave : Option ℤ
  soundFile : Option String
  waveform : Option String
  envelope : Option ADSR
deriving DecidableEq

/-- `Partial(Sound)` as accepted by `updateSound`. -/
structure SoundPatch where
  id : Option ℕ := none
  packId : Option ℕ := none
  name : Option String := none
  note : Option String := none
  octave : Option ℤ := none
  soundFile : Option (Option String) := none
  waveform : Option String := none
  envelope : Option ADSR := none
  createdAt : Option ℕ := none
deriving DecidableEq

/-- A `reviews` row. -/
structure Review where
  id : ℕ
  packId : ℕ
  userId : ℕ
  rating : ℤ
  comment : Option String
  createdAt : ℕ
deriving DecidableEq

/-- `InsertReview`. -/
structure InsertReview where
  packId : ℕ
  userId : ℕ
  rating : ℤ
  comment : Option String
deriving DecidableEq

/-- A `purchases` row. -/
structure Purchase where
  id : ℕ
  userId : ℕ
  packId : ℕ
  price : ℤ
  createdAt : ℕ
deriving DecidableEq

/-- `InsertPurchase`. -/
structure InsertPurchase where
  userId : ℕ
  packId : ℕ
  price : ℤ
deriving DecidableEq

/-- The `MemStorage` class: five maps and five id counters. -/
structure MemStorage where
  users : List (ℕ × StoreUser)
  soundPacks : List (ℕ × SoundPack)
  sounds : List (ℕ × StoreSound)
  reviews : List (ℕ × Review)
  purchases : List (ℕ × Purchase)
  userIdCounter : ℕ
  soundPackIdCounter : ℕ
  soundIdCounter : ℕ
  reviewIdCounter : ℕ
  purchaseIdCounter : ℕ
deriving DecidableEq

/-- The freshly constructed store: empty maps, all counters 1. -/
def emptyStorage : MemStorage := ⟨[], [], [], [], [], 1, 1, 1, 1, 1⟩

/-- `getSoundPack`. -/
def getSoundPack (st : MemStorage) (id : ℕ) : Option SoundPack :=
  lookupKey st.soundPacks id

/-- `createUser`. -/
def createUser (st : MemStorage) (ins : InsertUser) (now : ℕ) :
    MemStorage × StoreUser :=
  let id := st.userIdCounter
  let u : StoreUser := ⟨id, ins.username, ins.password, now⟩
  ({ st with
      users := setKey st.users id u
      userIdCounter := id + 1 }, u)

/-- `createSoundPack`: fresh id from the counter, `||`/`??` defaults for
the optional columns, `downloads` and `rating` zero, both timestamps
`now`. -/
def createSoundPack (st : MemStorage) (ins : InsertSoundPack) (now : ℕ) :
    MemStorage × SoundPack :=
  let id := st.soundPackIdCounter
  let pk : SoundPack :=
    { id := id
      name := ins.name
      description := jsStrOrNull ins.description
      userId := ins.userId
      price := ins.price.getD 0
      isPublic := ins.isPublic.getD true
      downloads := 0
      rating := 0
      imageUrl := jsStrOrNull ins.imageUrl
      createdAt := now
      updatedAt := now }
  ({ st with
      soundPacks := setKey st.soundPacks id pk
      soundPackIdCounter := id + 1 }, pk)

/-- The spread `(...soundPack, ...updates, updatedAt: new Date(), id)` of
`updateSoundPack`: patch fields override, then `updatedAt` is forced to
`now` and `id` kept. -/
def applySoundPackPatch (pk : SoundPack) (p : SoundPackPatch) (now : ℕ) :
    SoundPack :=
  { id := pk.id
    name := p.name.getD pk.name
    description := p.description.getD pk.description
    userId := p.userId.getD pk.userId
    price := p.price.getD pk.price
    isPublic := p.isPublic.getD pk.isPublic
    downloads := p.downloads.getD pk.downloads
    rating := p.rating.getD pk.rating
    imageUrl := p.imageUrl.getD pk.imageUrl
    createdAt := p.createdAt.getD pk.createdAt
    updatedAt := now }

/-- `updateSoundPack`: no-op returning `undefined` when the pack is
missing. -/
def updateSoundPack (st : MemStorage) (id : ℕ) (p : SoundPackPatch)
    (now : ℕ) : MemStorage × Option SoundPack :=
  match lookupKey st.soundPacks id with
  | none => (st, none)
  | some pk =>
      let upd := applySoundPackPatch pk p now
      ({ st with soundPacks := setKey st.soundPacks id upd }, some upd)

/-- `getSoundsByPackId`. -/
def getSoundsByPackId (st : MemStorage) (packId : ℕ) : List StoreSound :=
  (st.sounds.map Prod.snd).filter (fun s => s.packId == packId)

/-- `deleteSound`. -/
def deleteSound (st : MemStorage) (id : ℕ) : MemStorage × Bool :=
  ({ st with sounds := eraseKey st.sounds id },
    st.sounds.any (fun p => p.1 == id))

/-- `deleteSoundPack`: delete each of the pack's sounds, then the pack
itself.  Purchases referencing the pack are left untouched. -/
def deleteSoundPack (st : MemStorage) (id : ℕ) : MemStorage × Bool :=
  let packSounds := getSoundsByPackId st id
  let st1 := packSounds.foldl (fun acc s => (deleteSound acc s.id).1) st
  ({ st1 with soundPacks := eraseKey st1.soundPacks id },
    st1.soundPacks.any (fun p => p.1 == id))

/-- `createSound`, with the schema's default envelope
`attack 0.1, decay 0.2, sustain 0.7, release 0.5`. -/
def createSound (st : MemStorage) (ins : InsertSound) (now : ℕ) :
    MemStorage × StoreSound :=
  let id := st.soundIdCounter
  let s : StoreSound :=
    { id := id
      packId := ins.packId
      name := ins.name
      note := ins.note
      octave := jsNumOr ins.octave 4
      soundFile := jsStrOrNull ins.soundFile
      waveform := jsStrOr ins.waveform "sine"
      envelope := ins.envelope.getD ⟨1 / 10, 1 / 5, 7 / 10, 1 / 2⟩
      createdAt := now }
  ({ st with
      sounds := setKey st.sounds id s
      soundIdCounter := id + 1 }, s)

/-- The spread `(...sound, ...updates, id)` of `updateSound`. -/
def applySoundPatch (s : StoreSound) (p : SoundPatch) : StoreSound :=
  { id := s.id
    packId := p.packId.getD s.packId
    name := p.name.getD s.name
    note := p.note.getD s.note
    octave := p.octave.getD s.octave
    soundFile := p.soundFile.getD s.soundFile
    waveform := p.waveform.getD s.waveform
    envelope := p.envelope.getD s.envelope
    createdAt := p.createdAt.getD s.createdAt }

/-- `updateSound`. -/
def updateSound (st : MemStorage) (id : ℕ) (p : SoundPatch) :
    MemStorage × Option StoreSound :=
  match lookupKey st.sounds id with
  | none => (st, none)
  | some s =>
      let upd := applySoundPatch s p
      ({ st with sounds := setKey st.sounds id upd }, some upd)

/-- `getReviewsByPackId`. -/
def getReviewsByPackId (st : MemStorage) (packId : ℕ) : List Review :=
  (st.reviews.map Prod.snd).filter (fun r => r.packId == packId)

/-- `createReview`: insert the review, then recompute the pack's rating
as the rounded mean of all its reviews. -/
def createReview (st : MemStorage) (ins : InsertReview) (now : ℕ) :
    MemStorage × Review :=
  let id := st.reviewIdCounter
  let r : Review := ⟨id, ins.packId, ins.userId, ins.rating, ins.comment, now⟩
  let st1 : MemStorage :=
    { st with
      reviews := setKey st.reviews id r
      reviewIdCounter := id + 1 }
  let packReviews := getReviewsByPackId st1 ins.packId
  let total : ℤ := (packReviews.map Review.rating).sum
  let avg : ℤ := jsRound ((total : ℚ) / (packReviews.length : ℚ))
  ((updateSoundPack st1 ins.packId { rating := some avg } now).1, r)

/-- `getUserPurchases`. -/
def getUserPurchases (st : MemStorage) (userId : ℕ) : List Purchase :=
  (st.purchases.map Prod.snd).filter (fun p => p.userId == userId)

/-- `hasPurchased`. -/
def hasPurchased (st : MemStorage) (userId packId : ℕ) : Bool :=
  (getUserPurchases st userId).any (fun p => p.packId == packId)

/-- `MemStorage.createPurchase`: insert the purchase, then increment the
referenced pack's `downloads` when the pack exists.  The existence of
the pack is not required here. -/
def createPurchase (st : MemStorage) (ins : InsertPurchase) (now : ℕ) :
    MemStorage × Purchase :=
  let id := st.purchaseIdCounter
  let pur : Purchase := ⟨id, ins.userId, ins.packId, ins.price, now⟩
  let st1 : MemStorage :=
    { st with
      purchases := setKey st.purchases id pur
      purchaseIdCounter := id + 1 }
  match getSoundPack st1 ins.packId with
  | some pk =>
      ((updateSoundPack st1 ins.packId
          { downloads := some (pk.downloads + 1) } now).1, pur)
  | none => (st1, pur)

/-- The `POST /users/:userId/purchases` route: reject when the user
already purchased the pack or the pack does not exist, otherwise create
the purchase at the pack's current price. -/
def apiCreatePurchase (st : MemStorage) (userId packId : ℕ) (now : ℕ) :
    MemStorage :=
  if hasPurchased st userId packId then st
  else
    match getSoundPack st packId with
    | none => st
    | some pk => (createPurchase st ⟨userId, packId, pk.price⟩ now).1

/-- The mutating storage/API operations of the marketplace. -/
inductive StoreOp
  | newUser (ins : InsertUser) (now : ℕ)
  | newPack (ins : InsertSoundPack) (now : ℕ)
  | patchPack (id : ℕ) (p : SoundPackPatch) (now : ℕ)
  | dropPack (id : ℕ)
  | newSound (ins : InsertSound) (now : ℕ)
  | patchSound (id : ℕ) (p : SoundPatch)
  | dropSound (id : ℕ)
  | newReview (ins : InsertReview) (now : ℕ)
  | buyPack (userId packId : ℕ) (now : ℕ)

/-- Whether an operation is a pack deletion. -/
def StoreOp.isDropPack : StoreOp → Bool
  | .dropPack _ => true
  | _ => false

/-- Apply one operation to the store. -/
def stepOp (st : MemStorage) : StoreOp → MemStorage
  | .newUser ins now => (createUser st ins now).1
  | .newPack ins now => (createSoundPack st ins now).1
  | .patchPack id p now => (updateSoundPack st id p now).1
  | .dropPack id => (deleteSoundPack st id).1
  | .newSound ins now => (createSound st ins now).1
  | .patchSound id p => (updateSound st id p).1
  | .dropSound id => (deleteSound st id).1
  | .newReview ins now => (createReview st ins now).1
  | .buyPack u p now => apiCreatePurchase st u p now

/-- Run a list of operations from a starting store. -/
def runOps (st : MemStorage) : List StoreOp → MemStorage
  | [] => st
  | op :: ops => runOps (stepOp st op) ops

/-- The referential invariant of the claim: every stored purchase's
`packId` resolves to a stored sound pack. -/
def purchasesValid (st : MemStorage) : Bool :=
  st.purchases.all (fun p => (lookupKey st.soundPacks p.2.packId).isSome)

/-- The invariant as a proposition. -/
def PurchasesOk (st : MemStorage) : Prop :=
  ∀ pr ∈ st.purchases, (lookupKey st.soundPacks pr.2.packId).isSome = true

/-- C7: for every chromatic note name and integer octave, the frequency
calculator returns `440 * 2 ^ (semitones / 12)` with
`semitones = (octave - 4) * 12 + (index note - index "A")`, and in
particular `getNoteFrequency "A" 4 = 440` exactly. -/
theorem frequency_formula_and_A4 :
    (∀ (note : String) (octave : ℤ), note ∈ NOTE_NAMES →
      getNoteFrequency note octave =
        440 * (2 : ℝ) ^
          ((((octave - 4) * 12 +
              ((NOTE_NAMES.indexOf note : ℤ) - 9) : ℤ) : ℝ) / 12)) ∧
    getNoteFrequency "A" 4 = 440 := by
  constructor
  · intro note octave h
    simp only [getNoteFrequency, if_pos h]
  · have hA : "A" ∈ NOTE_NAMES := by decide
    have hidx : (NOTE_NAMES.indexOf "A" : ℤ) = 9 := by decide
    simp only [getNoteFrequency, if_pos hA, hidx]
    norm_num

/-- Witness for C7 at the concrete inputs `"A"`, octave `4` and `"C"`,
octave `4`. -/
theorem frequency_formula_and_A4_witness :
    ("C" ∈ NOTE_NAMES) ∧
    getNoteFrequency "C" 4 =
      440 * (2 : ℝ) ^
        ((((((4 : ℤ)) - 4) * 12 +
            ((NOTE_NAMES.indexOf "C" : ℤ) - 9) : ℤ) : ℝ) / 12) ∧
    getNoteFrequency "A" 4 = 440 :=
  ⟨by decide, frequency_formula_and_A4.1 "C" 4 (by decide),
    frequency_formula_and_A4.2⟩

/-- C8: for every valid note name, raising the octave by one doubles the
computed frequency. -/
theorem frequency_octave_doubling (note : String) (octave : ℤ)
    (h : note ∈ NOTE_NAMES) :
    getNoteFrequency note (octave + 1) = 2 * getNoteFrequency note octave := by
  simp only [getNoteFrequency, if_pos h]
  have harg :
      ((((octave + 1 - 4) * 12 +
          ((NOTE_NAMES.indexOf note : ℤ) - 9) : ℤ) : ℝ) / 12) =
      ((((octave - 4) * 12 +
          ((NOTE_NAMES.indexOf note : ℤ) - 9) : ℤ) : ℝ) / 12) + 1 := by
    push_cast
    ring
  rw [harg, Real.rpow_add (by norm_num : (0 : ℝ) < 2), Real.rpow_one]
  ring

/-- Witness for C8 at the concrete input `"C"`, octave `3`. -/
theorem frequency_octave_doubling_witness :
    ("C" ∈ NOTE_NAMES) ∧
    getNoteFrequency "C" (3 + 1) = 2 * getNoteFrequency "C" 3 :=
  ⟨by decide, frequency_octave_doubling "C" 3 (by decide)⟩

/-- C3 counterexample: at the unknown note name `"H"` (octave 4), the
shared library calculator `getNoteFrequency` of `piano.ts` returns `0`,
not the documented fallback `440`. -/
theorem piano_lib_unknown_note_not_440 :
    getNoteFrequency "H" 4 ≠ 440 ∧ getNoteFrequency "H" 4 = 0 := by
  have h : "H" ∉ NOTE_NAMES := by decide
  constructor
  · simp only [getNoteFrequency, if_neg h]
    norm_num
  · simp only [getNoteFrequency, if_neg h]

/-- C3 amended: on every unknown note name, both calculators return a
fallback value without raising (they are total functions): the
`PianoSoundboard`-local copy returns the documented `440`, while the
shared `piano.ts` calculator returns `0`. -/
theorem unknown_note_fallback_values (note : String) (octave : ℤ)
    (h : note ∉ NOTE_NAMES) :
    getNoteFrequency note octave = 0 ∧
    soundboardNoteFrequency note octave = 440 := by
  have h2 : note ∉ soundboardNoteNames := h
  exact ⟨by simp only [getNoteFrequency, if_neg h],
    by simp only [soundboardNoteFrequency, if_neg h2]⟩

/-- Witness for the amended C3 at the concrete unknown note `"H"`,
octave `4`. -/
theorem unknown_note_fallback_values_witness :
    ("H" ∉ NOTE_NAMES) ∧
    getNoteFrequency "H" 4 = 0 ∧
    soundboardNoteFrequency "H" 4 = 440 :=
  ⟨by decide, (unknown_note_fallback_values "H" 4 (by decide)).1,
    (unknown_note_fallback_values "H" 4 (by decide)).2⟩

/-- C1 counterexample: start playback when the audio clock already reads
1 s (so the captured reference timestamp is 1).  At the tick with
`currentTime = 1`, the note at beat 0 of a 120 bpm pattern has
spec-computed absolute start time `1 + 0 = 1`, inside the look-ahead
window `[1, 1.1)`, so the claimed scheduler dispatches it — but the
code's `scheduleNotes` computes its start time as `0 * 500 / 1000 = 0`
with no reference offset and dispatches nothing. -/
theorem scheduleNotes_misses_note_when_clock_offset :
    scheduleNotes [c2Note] 500 1 = [] ∧
    scheduleNotesSpec 1 [c2Note] 500 1 = [⟨c2Note, 1, 1 / 2⟩] := by
  constructor
  · simp only [scheduleNotes, lookAheadTime, c2Note, List.filter]
    norm_num
  · simp only [scheduleNotesSpec, lookAheadTime, c2Note, List.filter]
    norm_num

/-- C1 amended: on a scheduler tick at clock `t`, a `playNote` dispatch
is issued for exactly the notes whose start time
`note.startTime * beatDuration / 1000` — taken directly on the audio
clock, with no offset by the reference timestamp — lies in the window
`[t, t + 0.1)`, and the dispatch carries that start time and the
duration `note.duration * beatDuration / 1000`. -/
theorem scheduleNotes_dispatch_characterization
    (notes : List SeqNote) (beatDuration t : ℚ) (d : Dispatch) :
    d ∈ scheduleNotes notes beatDuration t ↔
      d.note ∈ notes ∧
      d.startTime = d.note.startTime * beatDuration / 1000 ∧
      d.duration = d.note.duration * beatDuration / 1000 ∧
      t ≤ d.startTime ∧ d.startTime < t + lookAheadTime := by
  simp only [scheduleNotes, List.mem_map, List.mem_filter, decide_eq_true_eq,
    ge_iff_le]
  constructor
  · rintro ⟨n, ⟨hmem, hwin⟩, rfl⟩
    exact ⟨hmem, rfl, rfl, hwin.1, hwin.2⟩
  · rintro ⟨hmem, hs, hd, h1, h2⟩
    refine ⟨d.note, ⟨hmem, ?_, ?_⟩, ?_⟩
    · rw [← hs]; exact h1
    · rw [← hs]; exact h2
    · cases d
      simp only at hs hd
      simp [hs, hd]

/-- Dispatch count of the `scheduleNotes` tick at clock `i / 10` seconds
for the beat-0 note of a 120 bpm pattern: `1` at the very first tick,
`0` at every later tick (its window-free start time `0` never recurs). -/
theorem scheduleNotes_c2_tick_count (i : ℕ) :
    (scheduleNotes [c2Note] 500 ((i : ℚ) / 10)).length =
      if i = 0 then 1 else 0 := by
  rcases Nat.eq_zero_or_pos i with h | h
  · subst h
    rw [if_pos rfl]
    simp only [scheduleNotes, lookAheadTime, c2Note]
    rw [List.filter_cons, if_pos]
    · simp
    · simp only [decide_eq_true_eq, ge_iff_le]
      norm_num
  · have hi : (1 : ℚ) ≤ (i : ℚ) := by exact_mod_cast h
    have hne : i ≠ 0 := Nat.pos_iff_ne_zero.mp h
    rw [if_neg hne]
    simp only [scheduleNotes, lookAheadTime, c2Note]
    rw [List.filter_cons, if_neg]
    · simp
    · simp only [decide_eq_true_eq, ge_iff_le, not_and]
      intro h1
      exfalso
      have h2 : (0 : ℚ) * 500 / 1000 = 0 := by norm_num
      rw [h2] at h1
      linarith

/-- C2: simulate 10 seconds of playback of the 4-beat pattern at 120 bpm
(`beatDuration = 500` ms, 5 loop iterations) with a scheduler tick every
100 ms starting at clock 0.  The note with `startTime = 0, duration = 1`
is dispatched exactly once in total — only during the first loop
iteration — and zero times during the second loop iteration (clock 2 s to
4 s), not once per loop iteration as required. -/
theorem c2_single_dispatch_over_ten_seconds :
    (((List.range 100).map
        (fun (i : ℕ) =>
          (scheduleNotes [c2Note] 500 ((i : ℚ) / 10)).length)).sum
      = 1) ∧
    (((List.range 20).map
        (fun (i : ℕ) =>
          (scheduleNotes [c2Note] 500 (((i + 20 : ℕ) : ℚ) / 10)).length)).sum
      = 0) := by
  constructor
  · rw [List.map_congr_left (fun i _ => scheduleNotes_c2_tick_count i)]
    decide
  · rw [List.map_congr_left (fun i _ => scheduleNotes_c2_tick_count (i + 20))]
    decide

/-- While the scheduler interval is not installed, no later event short
of pressing play can produce a dispatch. -/
theorem runEvents_no_dispatch (notes : List SeqNote)
    (beatDuration totalBeats : ℚ) (s : SeqMachine)
    (evs : List SeqEvent) (hs : s.schedulerActive = false)
    (hevs : evs.all (fun e => !e.isStart) = true) :
    (runEvents notes beatDuration totalBeats s evs).2 = [] := by
  induction evs generalizing s with
  | nil => rfl
  | cons e es ih =>
      rw [List.all_cons, Bool.and_eq_true] at hevs
      cases e with
      | tick t =>
          simp only [runEvents, stepEvent, hs, Bool.false_eq_true, if_false]
          exact ih s hs hevs.2
      | frame t =>
          simp only [runEvents, stepEvent]
          by_cases hf : s.framePending = true
          · simp only [hf, if_true]
            by_cases hp : s.isPlaying = true
            · simp only [hp, if_true, List.nil_append]
              exact ih _ hs hevs.2
            · simp only [eq_false_of_ne_true hp, Bool.false_eq_true, if_false,
                List.nil_append]
              exact ih _ hs hevs.2
          · simp only [eq_false_of_ne_true hf, Bool.false_eq_true, if_false,
              List.nil_append]
            exact ih _ hs hevs.2
      | press t =>
          exact absurd hevs.1 (by simp [SeqEvent.isStart])
      | release =>
          simp only [runEvents, stepEvent, List.nil_append]
          exact ih _ rfl hevs.2

/-- C4: `stopSequencer` leaves the scheduler interval cleared, the
animation frame cancelled and every sounding note silenced, and from the
returned state any further event-loop activity that does not press play
again issues zero `playNote` dispatches to the audio sink. -/
theorem stop_cancels_timers_and_silences (notes : List SeqNote)
    (beatDuration totalBeats : ℚ) (s : SeqMachine) (evs : List SeqEvent)
    (hevs : evs.all (fun e => !e.isStart) = true) :
    (stopSequencer s).schedulerActive = false ∧
    (stopSequencer s).framePending = false ∧
    (stopSequencer s).soundingNotes = [] ∧
    (runEvents notes beatDuration totalBeats (stopSequencer s) evs).2 = [] :=
  ⟨rfl, rfl, rfl,
    runEvents_no_dispatch notes beatDuration totalBeats _ evs rfl hevs⟩

/-- Witness for C4: a playing state with a sounding note, stopped and
then fed a pending tick and a frame. -/
theorem stop_cancels_timers_and_silences_witness :
    (([SeqEvent.tick 2, SeqEvent.frame 2] : List SeqEvent).all
        (fun e => !e.isStart) = true) ∧
    ((stopSequencer
        { isPlaying := true, schedulerActive := true, framePending := true,
          soundingNotes := ["n0"], refTime := 0,
          currentBeat := 0 }).schedulerActive = false ∧
      (stopSequencer
        { isPlaying := true, schedulerActive := true, framePending := true,
          soundingNotes := ["n0"], refTime := 0,
          currentBeat := 0 }).framePending = false ∧
      (stopSequencer
        { isPlaying := true, schedulerActive := true, framePending := true,
          soundingNotes := ["n0"], refTime := 0,
          currentBeat := 0 }).soundingNotes = [] ∧
      (runEvents [c2Note] 500 16
        (stopSequencer
          { isPlaying := true, schedulerActive := true, framePending := true,
            soundingNotes := ["n0"], refTime := 0, currentBeat := 0 })
        [SeqEvent.tick 2, SeqEvent.frame 2]).2 = []) :=
  ⟨by simp [SeqEvent.isStart],
    stop_cancels_timers_and_silences [c2Note] 500 16 _ _
      (by simp [SeqEvent.isStart])⟩

/-- C5: entering Recording captures the start timestamp and clears the
buffer; each note notification received while Recording appends
`(pitch, octave, now - startTimestamp)`; and a recording started at any
(nonzero) clock value `T`, fed three notes at `T`, `T + 500` and
`T + 1000` and then stopped, yields exactly the three entries with
relative offsets `0`, `500`, `1000` in order. -/
theorem recording_appends_relative_offsets
    (T : ℤ) (hT : 0 < T)
    (s : RecorderState) (p1 p2 p3 : String) (o1 o2 o3 : ℤ)
    (q : String) (oq now st : ℤ) (hq : s.isRecording = true)
    (hst : s.startTime = some st) (hst0 : st ≠ 0) :
    ((startRecording T).recordedNotes = [] ∧
      (startRecording T).startTime = some T) ∧
    (addNoteToRecording s q oq now).recordedNotes =
      s.recordedNotes ++ [⟨q, oq, now - st⟩] ∧
    (stopRecording
        (addNoteToRecording
          (addNoteToRecording
            (addNoteToRecording (startRecording T) p1 o1 T)
            p2 o2 (T + 500))
          p3 o3 (T + 1000))).2 =
      [⟨p1, o1, 0⟩, ⟨p2, o2, 500⟩, ⟨p3, o3, 1000⟩] := by
  have hTne : T ≠ 0 := ne_of_gt hT
  refine ⟨⟨rfl, rfl⟩, ?_, ?_⟩
  · simp only [addNoteToRecording, hst, hq, ne_eq, hst0, not_false_eq_true,
      and_true, true_and, if_true]
  · simp only [startRecording, addNoteToRecording, stopRecording, ne_eq,
      hTne, not_false_eq_true, and_true, if_true, List.nil_append,
      List.append_assoc, List.cons_append, List.singleton_append]
    norm_num

/-- Witness for C5: a recording started at clock 1700000000000 with notes
C4, E4, G4 at relative times 0, 500 and 1000 ms. -/
theorem recording_appends_relative_offsets_witness :
    ((0 : ℤ) < 1700000000000 ∧
      (⟨true, [], some 1700000000000⟩ : RecorderState).isRecording = true ∧
      (⟨true, [], some 1700000000000⟩ : RecorderState).startTime =
        some 1700000000000 ∧
      (1700000000000 : ℤ) ≠ 0) ∧
    (stopRecording
        (addNoteToRecording
          (addNoteToRecording
            (addNoteToRecording (startRecording 1700000000000) "C" 4
              1700000000000)
            "E" 4 (1700000000000 + 500))
          "G" 4 (1700000000000 + 1000))).2 =
      [⟨"C", 4, 0⟩, ⟨"E", 4, 500⟩, ⟨"G", 4, 1000⟩] :=
  ⟨⟨by decide, rfl, rfl, by decide⟩,
    (recording_appends_relative_offsets 1700000000000 (by decide)
      ⟨true, [], some 1700000000000⟩
      "C" "E" "G" 4 4 4 "C" 4 1700000000000 1700000000000 rfl rfl
      (by decide)).2.2⟩

/-- C6: for every peak `v`, envelope and duration (with positive attack,
decay and release phases that fit inside the duration), the scheduled
breakpoints are exactly the five listed events, and the resulting gain
curve is 0 at the start time, `v` at the end of the attack,
`v * sustain` at the end of the decay, `v * sustain` throughout the hold
(both endpoints and midpoint), and 0 at `startTime + duration`. -/
theorem envelope_breakpoints_and_gain (v : ℚ) (env : ADSR)
    (startTime duration : ℚ) (ha : 0 < env.attack) (hd : 0 < env.decay)
    (hr : 0 < env.release)
    (hfit : env.attack + env.decay < duration - env.release) :
    envelopeEvents v env startTime duration =
      [GainEvent.setValue 0 startTime,
       GainEvent.rampTo v (startTime + env.attack),
       GainEvent.rampTo (v * env.sustain)
         (startTime + env.attack + env.decay),
       GainEvent.setValue (v * env.sustain)
         (startTime + duration - env.release),
       GainEvent.rampTo 0 (startTime + duration)] ∧
    gainAt (envelopeEvents v env startTime duration) startTime = 0 ∧
    gainAt (envelopeEvents v env startTime duration)
      (startTime + env.attack) = v ∧
    gainAt (envelopeEvents v env startTime duration)
      (startTime + env.attack + env.decay) = v * env.sustain ∧
    gainAt (envelopeEvents v env startTime duration)
      ((startTime + env.attack + env.decay +
        (startTime + duration - env.release)) / 2) = v * env.sustain ∧
    gainAt (envelopeEvents v env startTime duration)
      (startTime + duration - env.release) = v * env.sustain ∧
    gainAt (envelopeEvents v env startTime duration)
      (startTime + duration) = 0 := by
  refine ⟨rfl, ?_, ?_, ?_, ?_, ?_, ?_⟩
  · simp only [gainAt, envelopeEvents, gainAtFrom]
    rw [if_neg (by linarith), if_pos (by linarith)]
    field_simp
  · simp only [gainAt, envelopeEvents, gainAtFrom]
    rw [if_neg (by linarith), if_neg (by linarith), if_pos (by linarith)]
    field_simp
  · simp only [gainAt, envelopeEvents, gainAtFrom]
    rw [if_neg (by linarith), if_neg (by linarith), if_neg (by linarith),
      if_pos (by linarith)]
  · simp only [gainAt, envelopeEvents, gainAtFrom]
    rw [if_neg (by linarith), if_neg (by linarith), if_neg (by linarith),
      if_pos (by linarith)]
  · simp only [gainAt, envelopeEvents, gainAtFrom]
    rw [if_neg (by linarith), if_neg (by linarith), if_neg (by linarith),
      if_neg (by linarith), if_pos (by linarith)]
    field_simp
  · simp only [gainAt, envelopeEvents, gainAtFrom]
    rw [if_neg (by linarith), if_neg (by linarith), if_neg (by linarith),
      if_neg (by linarith), if_neg (by linarith)]

/-- Witness for C6 at the spec's example: envelope
`attack 0.1, decay 0.2, sustain 0.7, release 0.5`, peak `1`, start time
`0`, duration `1`: gain 0 at `t = 0`, 1 at `t = attack`, 0.7 at
`t = attack + decay`, and 0 at `t = duration`. -/
theorem envelope_breakpoints_and_gain_witness :
    ((0 : ℚ) < 1 / 10 ∧ (0 : ℚ) < 1 / 5 ∧ (0 : ℚ) < 1 / 2 ∧
      (1 : ℚ) / 10 + 1 / 5 < 1 - 1 / 2) ∧
    gainAt (envelopeEvents 1 ⟨1 / 10, 1 / 5, 7 / 10, 1 / 2⟩ 0 1) 0 = 0 ∧
    gainAt (envelopeEvents 1 ⟨1 / 10, 1 / 5, 7 / 10, 1 / 2⟩ 0 1)
      (0 + (1 : ℚ) / 10) = 1 ∧
    gainAt (envelopeEvents 1 ⟨1 / 10, 1 / 5, 7 / 10, 1 / 2⟩ 0 1)
      (0 + (1 : ℚ) / 10 + 1 / 5) = 1 * (7 / 10) ∧
    gainAt (envelopeEvents 1 ⟨1 / 10, 1 / 5, 7 / 10, 1 / 2⟩ 0 1)
      (0 + (1 : ℚ)) = 0 := by
  have h := envelope_breakpoints_and_gain 1 ⟨1 / 10, 1 / 5, 7 / 10, 1 / 2⟩
    0 1 (by norm_num) (by norm_num) (by norm_num) (by norm_num)
  exact ⟨⟨by norm_num, by norm_num, by norm_num, by norm_num⟩,
    h.2.1, h.2.2.1, h.2.2.2.1, h.2.2.2.2.2.2⟩

/-! ### Association-list lemmas -/

theorem lookup_map_replace_self {α : Type} (l : List (ℕ × α)) (k : ℕ)
    (v : α) (h : l.any (fun p => p.1 == k) = true) :
    lookupKey (l.map (fun p => if p.1 == k then (k, v) else p)) k =
      some v := by
  induction l with
  | nil => simp at h
  | cons a l ih =>
      rw [List.any_cons, Bool.or_eq_true] at h
      by_cases ha : (a.1 == k) = true
      · rw [List.map_cons, if_pos ha]
        unfold lookupKey
        simp only [List.find?_cons, beq_self_eq_true]
        rfl
      · have haf : (a.1 == k) = false := by simpa using ha
        rw [List.map_cons, if_neg ha]
        unfold lookupKey at ih ⊢
        simp only [List.find?_cons, haf]
        exact ih (h.resolve_left ha)

theorem lookup_map_replace_ne {α : Type} (l : List (ℕ × α)) (k k' : ℕ)
    (v : α) (hne : k' ≠ k) :
    lookupKey (l.map (fun p => if p.1 == k then (k, v) else p)) k' =
      lookupKey l k' := by
  have hkk' : (k == k') = false := by
    simp only [beq_eq_false_iff_ne, ne_eq]
    omega
  induction l with
  | nil => rfl
  | cons a l ih =>
      by_cases ha : (a.1 == k) = true
      · have hak : a.1 = k := by simpa using ha
        have haf : (a.1 == k') = false := by rw [hak]; exact hkk'
        rw [List.map_cons, if_pos ha]
        unfold lookupKey at ih ⊢
        simp only [List.find?_cons, hkk', haf]
        exact ih
      · rw [List.map_cons, if_neg ha]
        unfold lookupKey at ih ⊢
        by_cases ha' : (a.1 == k') = true
        · simp only [List.find?_cons, ha']
        · have haf : (a.1 == k') = false := by simpa using ha'
          simp only [List.find?_cons, haf]
          exact ih

theorem lookup_append_single_self {α : Type} (l : List (ℕ × α)) (k : ℕ)
    (v : α) (h : ¬l.any (fun p => p.1 == k) = true) :
    lookupKey (l ++ [(k, v)]) k = some v := by
  induction l with
  | nil =>
      unfold lookupKey
      rw [List.nil_append]
      simp only [List.find?_cons, beq_self_eq_true]
      rfl
  | cons a l ih =>
      rw [List.any_cons, Bool.or_eq_true, not_or] at h
      have haf : (a.1 == k) = false := by simpa using h.1
      unfold lookupKey at ih ⊢
      rw [List.cons_append]
      simp only [List.find?_cons, haf]
      exact ih h.2

theorem lookup_append_single_ne {α : Type} (l : List (ℕ × α)) (k k' : ℕ)
    (v : α) (hne : k' ≠ k) :
    lookupKey (l ++ [(k, v)]) k' = lookupKey l k' := by
  have hkk' : (k == k') = false := by
    simp only [beq_eq_false_iff_ne, ne_eq]
    omega
  induction l with
  | nil =>
      unfold lookupKey
      rw [List.nil_append]
      simp only [List.find?_cons, hkk', List.find?_nil]
  | cons a l ih =>
      unfold lookupKey at ih ⊢
      rw [List.cons_append]
      by_cases ha' : (a.1 == k') = true
      · simp only [List.find?_cons, ha']
      · have haf : (a.1 == k') = false := by simpa using ha'
        simp only [List.find?_cons, haf]
        exact ih

theorem lookupKey_setKey_self {α : Type} (l : List (ℕ × α)) (k : ℕ)
    (v : α) : lookupKey (setKey l k v) k = some v := by
  unfold setKey
  by_cases h : l.any (fun p => p.1 == k) = true
  · rw [if_pos h]
    exact lookup_map_replace_self l k v h
  · rw [if_neg h]
    exact lookup_append_single_self l k v h

theorem lookupKey_setKey_ne {α : Type} (l : List (ℕ × α)) (k k' : ℕ)
    (v : α) (hne : k' ≠ k) :
    lookupKey (setKey l k v) k' = lookupKey l k' := by
  unfold setKey
  by_cases h : l.any (fun p => p.1 == k) = true
  · rw [if_pos h]
    exact lookup_map_replace_ne l k k' v hne
  · rw [if_neg h]
    exact lookup_append_single_ne l k k' v hne

theorem lookupKey_setKey_isSome {α : Type} (l : List (ℕ × α)) (k k' : ℕ)
    (v : α) (h : (lookupKey l k').isSome = true) :
    (lookupKey (setKey l k v) k').isSome = true := by
  by_cases hk : k' = k
  · subst hk
    rw [lookupKey_setKey_self]
    rfl
  · rw [lookupKey_setKey_ne l k k' v hk]
    exact h

theorem setKey_mem {α : Type} {l : List (ℕ × α)} {k : ℕ} {v : α}
    {x : ℕ × α} (hx : x ∈ setKey l k v) : x = (k, v) ∨ x ∈ l := by
  unfold setKey at hx
  by_cases h : l.any (fun p => p.1 == k) = true
  · rw [if_pos h] at hx
    rcases List.mem_map.mp hx with ⟨p, hp, hpx⟩
    by_cases hpk : p.1 == k
    · rw [if_pos hpk] at hpx
      exact Or.inl hpx.symm
    · rw [if_neg hpk] at hpx
      exact Or.inr (hpx ▸ hp)
  · rw [if_neg h] at hx
    rcases List.mem_append.mp hx with h1 | h1
    · exact Or.inr h1
    · exact Or.inl (List.mem_singleton.mp h1)

theorem eraseKey_map_replace {α : Type} (l : List (ℕ × α)) (k : ℕ) (v : α) :
    eraseKey (l.map (fun p => if p.1 == k then (k, v) else p)) k =
      eraseKey l k := by
  induction l with
  | nil => rfl
  | cons a l ih =>
      unfold eraseKey at ih ⊢
      by_cases ha : (a.1 == k) = true
      · have hak : a.1 = k := by simpa using ha
        rw [List.map_cons, if_pos ha, List.filter_cons, List.filter_cons]
        have h1 : ((((k, v) : ℕ × α)).1 != k) = false := by simp
        have h2 : (a.1 != k) = false := by simp [hak]
        rw [h1, h2]
        simp only [Bool.false_eq_true, if_false]
        exact ih
      · have h2 : (a.1 != k) = true := by
          simp only [bne_iff_ne, ne_eq]
          simpa using ha
        rw [List.map_cons, if_neg ha, List.filter_cons, List.filter_cons, h2]
        simp only [if_true]
        rw [ih]

theorem eraseKey_setKey {α : Type} (l : List (ℕ × α)) (k : ℕ) (v : α) :
    eraseKey (setKey l k v) k = eraseKey l k := by
  unfold setKey
  by_cases h : l.any (fun p => p.1 == k) = true
  · rw [if_pos h]
    exact eraseKey_map_replace l k v
  · rw [if_neg h]
    simp only [eraseKey, List.filter_append, List.filter_cons,
      bne_self_eq_false, Bool.false_eq_true, if_false, List.filter_nil,
      List.append_nil]

/-! ### Invariant preservation -/

theorem purchasesOk_of_parts (st st' : MemStorage)
    (hpur : st'.purchases = st.purchases)
    (hpk : st'.soundPacks = st.soundPacks) (h : PurchasesOk st) :
    PurchasesOk st' := by
  intro pr hpr
  rw [hpk]
  exact h pr (hpur ▸ hpr)

theorem updateSoundPack_preserves (st : MemStorage) (id : ℕ)
    (p : SoundPackPatch) (now : ℕ) (h : PurchasesOk st) :
    PurchasesOk (updateSoundPack st id p now).1 := by
  unfold updateSoundPack
  cases hc : lookupKey st.soundPacks id with
  | none => exact h
  | some pk =>
      intro pr hpr
      exact lookupKey_setKey_isSome st.soundPacks id pr.2.packId _
        (h pr hpr)

theorem stepOp_preserves (st : MemStorage) (op : StoreOp)
    (hop : op.isDropPack = false) (h : PurchasesOk st) :
    PurchasesOk (stepOp st op) := by
  cases op with
  | newUser ins now => exact h
  | newPack ins now =>
      intro pr hpr
      exact lookupKey_setKey_isSome st.soundPacks st.soundPackIdCounter
        pr.2.packId _ (h pr hpr)
  | patchPack id p now => exact updateSoundPack_preserves st id p now h
  | dropPack id => exact absurd hop (by simp [StoreOp.isDropPack])
  | newSound ins now => exact h
  | patchSound id p =>
      simp only [stepOp, updateSound]
      cases hc : lookupKey st.sounds id with
      | none => exact h
      | some s => exact h
  | dropSound id => exact h
  | newReview ins now =>
      simp only [stepOp, createReview]
      apply updateSoundPack_preserves
      exact h
  | buyPack u pid now =>
      simp only [stepOp, apiCreatePurchase]
      by_cases hb : hasPurchased st u pid = true
      · simp only [hb, if_true]
        exact h
      · simp only [eq_false_of_ne_true hb, Bool.false_eq_true, if_false]
        cases hc : getSoundPack st pid with
        | none => exact h
        | some pk =>
            simp only [createPurchase]
            have hc1 : getSoundPack
                { st with
                  purchases := setKey st.purchases st.purchaseIdCounter
                    ⟨st.purchaseIdCounter, u, pid, pk.price, now⟩
                  purchaseIdCounter := st.purchaseIdCounter + 1 }
                pid = some pk := hc
            rw [hc1]
            simp only [updateSoundPack]
            rw [show lookupKey
                ({ st with
                  purchases := setKey st.purchases st.purchaseIdCounter
                    ⟨st.purchaseIdCounter, u, pid, pk.price, now⟩
                  purchaseIdCounter :=
                    st.purchaseIdCounter + 1 } : MemStorage).soundPacks
                pid = some pk from hc]
            intro pr hpr
            rcases setKey_mem hpr with hx | hx
            · subst hx
              exact lookupKey_setKey_isSome st.soundPacks pid _ _
                (by rw [show (lookupKey st.soundPacks pid) = some pk from hc]
                    rfl)
            · exact lookupKey_setKey_isSome st.soundPacks pid _ _ (h pr hx)

theorem runOps_preserves (ops : List StoreOp) (st : MemStorage)
    (hops : ops.all (fun o => !o.isDropPack) = true)
    (h : PurchasesOk st) : PurchasesOk (runOps st ops) := by
  induction ops generalizing st with
  | nil => exact h
  | cons op ops ih =>
      rw [List.all_cons, Bool.and_eq_true] at hops
      have hop : op.isDropPack = false := by
        rcases hops.1 with h1
        cases hh : op.isDropPack
        · rfl
        · rw [hh] at h1
          exact absurd h1 (by decide)
      exact ih (stepOp st op) hops.2 (stepOp_preserves st op hop h)

/-- C9 counterexample: create a pack (id 1), purchase it through the API
route (which verifies the pack exists), then delete the pack.  The
purchase survives the deletion and now references a pack that is no
longer in the store, so the claimed invariant fails in a reachable
state. -/
theorem purchase_invariant_broken_by_delete :
    purchasesValid
      (runOps emptyStorage
        [StoreOp.newPack ⟨"Pack", none, 1, some 499, none, none⟩ 10,
         StoreOp.buyPack 2 1 20, StoreOp.dropPack 1]) = false ∧
    (runOps emptyStorage
        [StoreOp.newPack ⟨"Pack", none, 1, some 499, none, none⟩ 10,
         StoreOp.buyPack 2 1 20, StoreOp.dropPack 1]).purchases ≠ [] := by
  constructor
  · decide
  · decide

/-- C9 amended: in every store state reachable from the empty store by a
sequence of storage/API operations that contains no pack deletion, every
stored purchase references a sound pack that exists in the store (pack
deletion does not cascade to purchases, so it can break the
invariant). -/
theorem purchase_invariant_without_delete (ops : List StoreOp)
    (hops : ops.all (fun o => !o.isDropPack) = true) :
    purchasesValid (runOps emptyStorage ops) = true := by
  apply List.all_eq_true.mpr
  intro pr hpr
  exact runOps_preserves ops emptyStorage hops (fun _ hx => absurd hx
    (by simp [emptyStorage])) pr hpr

/-- Witness for the amended C9: pack creation followed by an API
purchase. -/
theorem purchase_invariant_without_delete_witness :
    (([StoreOp.newPack ⟨"Pack", none, 1, some 499, none, none⟩ 10,
        StoreOp.buyPack 2 1 20] : List StoreOp).all
      (fun o => !o.isDropPack) = true) ∧
    purchasesValid
      (runOps emptyStorage
        [StoreOp.newPack ⟨"Pack", none, 1, some 499, none, none⟩ 10,
         StoreOp.buyPack 2 1 20]) = true :=
  ⟨by decide,
    purchase_invariant_without_delete
      [StoreOp.newPack ⟨"Pack", none, 1, some 499, none, none⟩ 10,
       StoreOp.buyPack 2 1 20] (by decide)⟩

/-- C10: when the referenced pack exists, `createPurchase` increments
exactly that pack's `downloads` by one and refreshes its `updatedAt`,
leaving the pack's other fields, every other pack binding, and the
sounds, reviews and users maps unchanged. -/
theorem createPurchase_frame_effect (st : MemStorage)
    (ins : InsertPurchase) (now : ℕ) (pk : SoundPack)
    (h : getSoundPack st ins.packId = some pk) :
    getSoundPack (createPurchase st ins now).1 ins.packId =
      some { pk with downloads := pk.downloads + 1, updatedAt := now } ∧
    eraseKey (createPurchase st ins now).1.soundPacks ins.packId =
      eraseKey st.soundPacks ins.packId ∧
    (createPurchase st ins now).1.sounds = st.sounds ∧
    (createPurchase st ins now).1.reviews = st.reviews ∧
    (createPurchase st ins now).1.users = st.users := by
  have h1 : getSoundPack
      ({ st with
        purchases := setKey st.purchases st.purchaseIdCounter
          ⟨st.purchaseIdCounter, ins.userId, ins.packId, ins.price, now⟩
        purchaseIdCounter := st.purchaseIdCounter + 1 } : MemStorage)
      ins.packId = some pk := h
  simp only [createPurchase, h1, updateSoundPack]
  rw [show lookupKey
      ({ st with
        purchases := setKey st.purchases st.purchaseIdCounter
          ⟨st.purchaseIdCounter, ins.userId, ins.packId, ins.price, now⟩
        purchaseIdCounter := st.purchaseIdCounter + 1 } :
          MemStorage).soundPacks ins.packId = some pk from h]
  refine ⟨?_, ?_, rfl, rfl, rfl⟩
  · show lookupKey (setKey st.soundPacks ins.packId _) ins.packId = _
    rw [lookupKey_setKey_self]
    rfl
  · exact eraseKey_setKey st.soundPacks ins.packId _

/-- Witness for C10: a one-pack store; the purchase bumps `downloads`
from 0 to 1 and updates `updatedAt`, and leaves the other maps empty as
they were. -/
theorem createPurchase_frame_effect_witness :
    getSoundPack (createSoundPack emptyStorage
        ⟨"Pack", none, 1, some 499, none, none⟩ 10).1 1 =
      some ⟨1, "Pack", none, 1, 499, true, 0, 0, none, 10, 10⟩ ∧
    getSoundPack
        (createPurchase (createSoundPack emptyStorage
            ⟨"Pack", none, 1, some 499, none, none⟩ 10).1
          ⟨2, 1, 499⟩ 20).1 1 =
      some ⟨1, "Pack", none, 1, 499, true, 0 + 1, 0, none, 10, 20⟩ ∧
    (createPurchase (createSoundPack emptyStorage
        ⟨"Pack", none, 1, some 499, none, none⟩ 10).1
      ⟨2, 1, 499⟩ 20).1.sounds = [] := by
  have h0 : getSoundPack (createSoundPack emptyStorage
      ⟨"Pack", none, 1, some 499, none, none⟩ 10).1 1 =
      some ⟨1, "Pack", none, 1, 499, true, 0, 0, none, 10, 10⟩ := by decide
  have h := createPurchase_frame_effect
    (createSoundPack emptyStorage ⟨"Pack", none, 1, some 499, none, none⟩
      10).1 ⟨2, 1, 499⟩ 20 ⟨1, "Pack", none, 1, 499, true, 0, 0, none, 10, 10⟩
    h0
  exact ⟨h0, h.1, h.2.2.1.trans (by decide)⟩

end PianoStore
